import Mathlib

/-!
Verification of the impact_profile_api resource-service and infinite-scroll
pagination engine.

The resource services (`PlatformService` in `src/services/platform_service.py`,
mirrored by `UserService`) are embedded from the source.  The pagination
engine `execute_infinite_scroll_query` lives in the external `api_utils`
package and is not part of this repository's sources; it is modelled from the
spec (section 4.1) with the error messages pinned by this repository's own
test-suite (`test/services/test_user_service.py`).

Documents are modelled as association lists with unique-key dictionary
semantics; the store is abstracted as explicitly passed functions / maps, and
Python exceptions become `Except` values.
-/

set_option maxHeartbeats 1000000
set_option linter.unusedVariables false

namespace ImpactProfile

/-- Error taxonomy of the service layer: `HTTPBadRequest` (400),
`HTTPForbidden` (403), `HTTPNotFound` (404), `HTTPInternalServerError` (500). -/
inductive SvcError where
  | badRequest (msg : String)
  | forbidden (msg : String)
  | notFound (msg : String)
  | internal (msg : String)
deriving DecidableEq, Repr

/-- A document payload: a Python dict with `String` keys and values in `α`. -/
abbrev Doc (α : Type) : Type := List (String × α)

/-- Dictionary lookup (`data[k]` / `data.get(k)`). -/
def dget {α : Type} (d : Doc α) (k : String) : Option α :=
  (d.find? (fun p => decide (p.1 = k))).map (fun p => p.2)

/-- Dictionary key-removal (`del data[k]`, a no-op when the key is absent). -/
def dremove {α : Type} (d : Doc α) (k : String) : Doc α :=
  d.filter (fun p => !decide (p.1 = k))

/-- Dictionary assignment (`data[k] = v`), keeping keys unique. -/
def dset {α : Type} (d : Doc α) (k : String) (v : α) : Doc α :=
  dremove d k ++ [(k, v)]

/-- Dictionary membership test (`k in data`). -/
def dhas {α : Type} (d : Doc α) (k : String) : Bool :=
  d.any (fun p => decide (p.1 = k))

namespace PlatformService

/-- `PlatformService._check_permission`: the body is `pass` — a placeholder
for future RBAC that returns `None` for every token and operation and never
raises. -/
def check_permission {τ : Type} (token : τ) (operation : String) : Unit :=
  ()

/-- The restricted fields of `_validate_update_data` /
`update_platform`, in source order. -/
def restricted_fields : List String := ["_id", "created", "saved"]

/-- `PlatformService._validate_update_data`: raise `HTTPForbidden` naming the
first restricted field present in the update payload. -/
def validate_update_data {α : Type} (data : Doc α) : Except SvcError Unit :=
  match restricted_fields.find? (fun fld => dhas data fld) with
  | some fld => Except.error (SvcError.forbidden ("Cannot update " ++ fld ++ " field"))
  | none => Except.ok ()

/-- The document actually persisted by `create_platform`: drop a
client-supplied `_id`, then stamp `created = breadcrumb` and
`saved = breadcrumb`. -/
def create_prepare {α : Type} (data : Doc α) (breadcrumb : α) : Doc α :=
  dset (dset (dremove data "_id") "created" breadcrumb) "saved" breadcrumb

/-- `PlatformService.create_platform`.  The MongoDB binding
`mongo.create_document` is passed in as `createDocument`; a raised store
exception is the `Except.error` case and is wrapped as
`HTTPInternalServerError` whose message embeds the original error text. -/
def create_platform {α τ : Type} (createDocument : Doc α → Except String String)
    (data : Doc α) (token : τ) (breadcrumb : α) : Except SvcError String :=
  let _ := check_permission token "create"
  match createDocument (create_prepare data breadcrumb) with
  | Except.ok platform_id => Except.ok platform_id
  | Except.error e => Except.error (SvcError.internal ("Failed to create platform: " ++ e))

/-- `PlatformService.get_platform`: fetch by id (`fetch` is the
`mongo.get_document` call outcome), `HTTPNotFound` when the store resolves no
document, store faults wrapped as `HTTPInternalServerError` with a message
naming the id but not the cause. -/
def get_platform {α τ : Type} (fetch : Except String (Option (Doc α)))
    (platform_id : String) (token : τ) : Except SvcError (Doc α) :=
  let _ := check_permission token "read"
  match fetch with
  | Except.ok (some platform) => Except.ok platform
  | Except.ok none =>
      Except.error (SvcError.notFound ("Platform " ++ platform_id ++ " not found"))
  | Except.error _ =>
      Except.error (SvcError.internal ("Failed to retrieve platform " ++ platform_id))

/-- `PlatformService.update_platform`.  `updateDocument` is the
`mongo.update_document` binding over an abstract store state `σ`; it returns
`none` when the id resolves no document.  Restricted fields are rejected
before any store interaction, the payload minus restricted fields is applied
with `saved` force-set to the breadcrumb, and store faults are wrapped as
`HTTPInternalServerError` naming the id but not the cause. -/
def update_platform {α τ σ : Type}
    (updateDocument : σ → String → Doc α → Except String (Option (Doc α)) × σ)
    (st : σ) (platform_id : String) (data : Doc α) (token : τ) (breadcrumb : α) :
    Except SvcError (Doc α) × σ :=
  let _ := check_permission token "update"
  match validate_update_data data with
  | Except.error e => (Except.error e, st)
  | Except.ok _ =>
    let set_data := dset (data.filter (fun p => !restricted_fields.contains p.1))
      "saved" breadcrumb
    match updateDocument st platform_id set_data with
    | (Except.ok (some updated), st2) => (Except.ok updated, st2)
    | (Except.ok none, st2) =>
        (Except.error (SvcError.notFound ("Platform " ++ platform_id ++ " not found")), st2)
    | (Except.error _, st2) =>
        (Except.error (SvcError.internal ("Failed to update platform " ++ platform_id)), st2)

end PlatformService

/-- A concrete document store: a collection keyed by document id. -/
abbrev StoreMap (α : Type) : Type := List (String × Doc α)

/-- Resolve a document by id in the concrete store. -/
def store_get {α : Type} (st : StoreMap α) (pid : String) : Option (Doc α) :=
  (st.find? (fun p => decide (p.1 = pid))).map (fun p => p.2)

/-- Apply a MongoDB `$set` payload to a document: each listed field is
overwritten (or added). -/
def apply_set {α : Type} (d : Doc α) (sd : Doc α) : Doc α :=
  sd.foldl (fun acc kv => dset acc kv.1 kv.2) d

/-- Concrete `mongo.update_document`: a partial `$set` update returning the
full post-update document, or `none` when the id resolves no document. -/
def mongo_update_document {α : Type} (st : StoreMap α) (pid : String) (sd : Doc α) :
    Except String (Option (Doc α)) × StoreMap α :=
  match store_get st pid with
  | none => (Except.ok none, st)
  | some d =>
    let d2 := apply_set d sd
    (Except.ok (some d2), st.map (fun p => if p.1 = pid then (pid, d2) else p))

/-! ### The infinite-scroll pagination engine

`execute_infinite_scroll_query` comes from the external `api_utils.mongo_utils`
package and is not part of this repository's sources.  It is modelled from the
spec (section 4.1): validate `limit`, `sort_by`, `order` and `after_id` before
any store access; filter by the optional name filter and by `id` strictly
after the cursor under the id's own order; sort by the requested field with a
deterministic tie-break on `id` ascending (a stable sort models the store's
sort); fetch `limit + 1` candidates and derive `has_more` / `next_cursor`.
Error messages are the ones pinned by this repository's tests. -/

/-- A stored document as seen by the pagination engine: a MongoDB ObjectId
and the document's comparable field values (`fields "name"` is the `name`
field used by the name filter). -/
structure ScrollDoc where
  id : String
  fields : String → String

/-- The page shape returned by the engine. -/
structure ScrollPage where
  items : List ScrollDoc
  limit : Int
  has_more : Bool
  next_cursor : Option String

/-- Engine-level failures: a validation failure (`HTTPBadRequest`) or a raw
store exception. -/
inductive ScrollErr where
  | badRequest (msg : String)
  | storeFault (msg : String)
deriving DecidableEq, Repr

/-- Lexicographic strict order on character lists (byte-wise comparison of
MongoDB ObjectIds and of BSON string values). -/
def charsLt : List Char → List Char → Bool
  | [], [] => false
  | [], _ :: _ => true
  | _ :: _, [] => false
  | a :: as, b :: bs =>
    decide (a < b) || (decide (a = b) && charsLt as bs)

/-- Strict order on strings: lexicographic on the character data. -/
def strLt (a b : String) : Bool := charsLt a.data b.data

/-- Reflexive order on strings, as the negation of the reverse strict order. -/
def strLe (a b : String) : Bool := !(strLt b a)

/-- Hexadecimal digit test for ObjectId validation. -/
def isHexChar (c : Char) : Bool :=
  (decide ('0' ≤ c) && decide (c ≤ '9')) || (decide ('a' ≤ c) && decide (c ≤ 'f'))
    || (decide ('A' ≤ c) && decide (c ≤ 'F'))

/-- Modelled from the spec: a string parses as a document identifier in the
store's native id format exactly when it is a 24-character hexadecimal
MongoDB ObjectId. -/
def isValidObjectId (s : String) : Bool :=
  decide (s.length = 24) && s.data.all isHexChar

/-- Modelled from the spec: the optional name filter (exact match on the
`name` field, one of the spec's allowed design choices). -/
def nameMatch (name : Option String) (d : ScrollDoc) : Bool :=
  match name with
  | none => true
  | some n => decide (d.fields "name" = n)

/-- Modelled from the spec: the cursor predicate restricts to documents whose
id sorts strictly after the cursor under the identifier's own order; no
cursor predicate is applied on the first page. -/
def cursorPred (after : Option String) (d : ScrollDoc) : Bool :=
  match after with
  | none => true
  | some a => strLt a d.id

/-- Modelled from the spec: the sort comparator — primary key the requested
sort field in the requested order, secondary deterministic tie-break on `id`
ascending. -/
def docLe (sort_by ord : String) (a b : ScrollDoc) : Bool :=
  if a.fields sort_by = b.fields sort_by then strLe a.id b.id
  else if ord = "desc" then strLt (b.fields sort_by) (a.fields sort_by)
  else strLt (a.fields sort_by) (b.fields sort_by)

/-- The sort comparator as a relation, for `List.insertionSort`. -/
def docRel (sort_by ord : String) (a b : ScrollDoc) : Prop :=
  docLe sort_by ord a b = true

instance (sort_by ord : String) : DecidableRel (docRel sort_by ord) := fun a b =>
  (inferInstance : Decidable (docLe sort_by ord a b = true))

/-- The validation message naming the allowed sort fields. -/
def sortByErrorMsg (allowed : List String) : String :=
  "sort_by must be one of " ++ String.intercalate ", " allowed

/-- The validation message for a malformed `order` parameter. -/
def orderErrorMsg : String :=
  "order must be 'asc' or 'desc'"

/-- The documents a list call considers: the collection restricted by the
optional name filter and by the cursor predicate. -/
def scrollMatched (coll : List ScrollDoc) (name after : Option String) :
    List ScrollDoc :=
  coll.filter (fun d => nameMatch name d && cursorPred after d)

/-- The matched documents in the requested sort order (with the id
tie-break). -/
def scrollSorted (coll : List ScrollDoc) (name after : Option String)
    (sort_by ord : String) : List ScrollDoc :=
  List.insertionSort (docRel sort_by ord) (scrollMatched coll name after)

/-- Modelled from the spec: the post-validation query — filter by name and
cursor, execute sorted with the tie-break comparator (a stable sort models
the store's sort), fetch `limit + 1` candidates, return the first `limit`
rows with `has_more` and `next_cursor` (`id` of the `limit`-th row) when more
than `limit` rows came back. -/
def runScrollQuery (coll : List ScrollDoc) (name : Option String)
    (after : Option String) (limit : Int) (sort_by ord : String) : ScrollPage :=
  if limit.toNat <
      ((scrollSorted coll name after sort_by ord).take (limit.toNat + 1)).length then
    { items := ((scrollSorted coll name after sort_by ord).take (limit.toNat + 1)).take
        limit.toNat,
      limit := limit, has_more := true,
      next_cursor := (((scrollSorted coll name after sort_by ord).take
        (limit.toNat + 1)).take limit.toNat).getLast?.map ScrollDoc.id }
  else
    { items := (scrollSorted coll name after sort_by ord).take (limit.toNat + 1),
      limit := limit, has_more := false, next_cursor := none }

/-- Modelled from the spec: `execute_infinite_scroll_query` of
`api_utils.mongo_utils` (missing from this repository's sources).  All
parameter validation happens before the collection (`collE`, whose `error`
case is a store fault) is consulted.  Validation messages are the ones the
repository's tests assert. -/
def execute_infinite_scroll_query (collE : Except String (List ScrollDoc))
    (name : Option String) (after_id : Option String) (limit : Int)
    (sort_by ord : String) (allowed_sort_fields : List String) :
    Except ScrollErr ScrollPage :=
  if limit < 1 then Except.error (ScrollErr.badRequest "limit must be >= 1")
  else if 100 < limit then Except.error (ScrollErr.badRequest "limit must be <= 100")
  else if !(allowed_sort_fields.contains sort_by) then
    Except.error (ScrollErr.badRequest (sortByErrorMsg allowed_sort_fields))
  else if !(ord = "asc" || ord = "desc") then
    Except.error (ScrollErr.badRequest orderErrorMsg)
  else if !(match after_id with | none => true | some a => isValidObjectId a) then
    Except.error (ScrollErr.badRequest "after_id must be a valid MongoDB ObjectId")
  else
    match collE with
    | Except.error e => Except.error (ScrollErr.storeFault e)
    | Except.ok coll => Except.ok (runScrollQuery coll name after_id limit sort_by ord)

/-- `ALLOWED_SORT_FIELDS` of `src/services/platform_service.py`. -/
def ALLOWED_SORT_FIELDS : List String :=
  ["name", "description", "status", "created.at_time", "saved.at_time"]

/-- `PlatformService.get_platforms`: permission stub, then the engine with this
resource's allow-list; Python default parameters (`limit=10`, `sort_by='name'`,
`order='asc'`, `name=None`, `after_id=None`) are the `Option.getD` defaults;
`HTTPBadRequest` from the engine is re-raised, any other failure is wrapped as
`HTTPInternalServerError` with the generic message. -/
def get_platforms {τ : Type} (collE : Except String (List ScrollDoc)) (token : τ)
    (name : Option String) (after_id : Option String) (limit : Option Int)
    (sort_by : Option String) (ord : Option String) : Except SvcError ScrollPage :=
  let _ := PlatformService.check_permission token "read"
  match execute_infinite_scroll_query collE name after_id (limit.getD 10)
      (sort_by.getD "name") (ord.getD "asc") ALLOWED_SORT_FIELDS with
  | Except.ok result => Except.ok result
  | Except.error (ScrollErr.badRequest m) => Except.error (SvcError.badRequest m)
  | Except.error (ScrollErr.storeFault _) =>
      Except.error (SvcError.internal "Failed to retrieve platforms")

/-- The scroll harness of the paging claim: repeatedly call the list
operation, feeding each page's `next_cursor` back as `after_id`, stopping
when `has_more` is false (with `fuel` bounding the number of calls). -/
def scroll (collE : Except String (List ScrollDoc)) (sort_by ord : String)
    (limit : Int) : Option String → Nat → List ScrollDoc
  | _, 0 => []
  | cursor, fuel + 1 =>
    match get_platforms collE () none cursor (some limit) (some sort_by) (some ord) with
    | Except.error _ => []
    | Except.ok page =>
      if page.has_more then
        page.items ++ scroll collE sort_by ord limit page.next_cursor fuel
      else page.items

/-- Counterexample collection: three documents with valid ObjectIds whose id
order disagrees with the order of their `name` values. -/
def demoDocA : ScrollDoc := ⟨"000000000000000000000003", fun _ => "a"⟩

/-- Second counterexample document. -/
def demoDocB : ScrollDoc := ⟨"000000000000000000000001", fun _ => "b"⟩

/-- Third counterexample document. -/
def demoDocC : ScrollDoc := ⟨"000000000000000000000002", fun _ => "c"⟩

/-- The counterexample collection. -/
def demoColl : List ScrollDoc := [demoDocA, demoDocB, demoDocC]

/-- Witness collection: two documents sharing the same value on every field,
so ordering is decided by the id tie-break alone. -/
def uniformDocA : ScrollDoc := ⟨"00000000000000000000000a", fun _ => "x"⟩

/-- Second witness document. -/
def uniformDocB : ScrollDoc := ⟨"00000000000000000000000b", fun _ => "x"⟩

/-- The witness collection (deliberately not in id order). -/
def uniformColl : List ScrollDoc := [uniformDocB, uniformDocA]

/-! ### Dictionary, store, string-order and comparator lemmas -/

theorem dget_cons {α : Type} (p : String × α) (t : Doc α) (k : String) :
    dget (p :: t) k = if p.1 = k then some p.2 else dget t k := by
  by_cases h : p.1 = k
  · simp [dget, List.find?_cons_of_pos, h]
  · simp [dget, List.find?_cons_of_neg, h]

theorem dhas_cons {α : Type} (p : String × α) (t : Doc α) (k : String) :
    dhas (p :: t) k = (decide (p.1 = k) || dhas t k) := by
  simp [dhas, List.any_cons]

theorem dremove_cons {α : Type} (p : String × α) (t : Doc α) (k : String) :
    dremove (p :: t) k = if p.1 = k then dremove t k else p :: dremove t k := by
  by_cases h : p.1 = k <;> simp [dremove, List.filter_cons, h]

theorem dget_dremove_self {α : Type} (d : Doc α) (k : String) :
    dget (dremove d k) k = none := by
  induction d with
  | nil => rfl
  | cons p t ih =>
    rw [dremove_cons]
    by_cases h : p.1 = k
    · rw [if_pos h]; exact ih
    · rw [if_neg h, dget_cons, if_neg h]; exact ih

theorem dremove_of_dhas_false {α : Type} {d : Doc α} {k : String}
    (h : dhas d k = false) : dremove d k = d := by
  induction d with
  | nil => rfl
  | cons p t ih =>
    rw [dhas_cons, Bool.or_eq_false_iff, decide_eq_false_iff_not] at h
    rw [dremove_cons, if_neg h.1, ih h.2]

theorem dget_append {α : Type} (l1 l2 : Doc α) (k : String) :
    dget (l1 ++ l2) k = (dget l1 k).or (dget l2 k) := by
  induction l1 with
  | nil => simp [dget]
  | cons p t ih =>
    rw [List.cons_append, dget_cons, dget_cons]
    by_cases h : p.1 = k
    · simp [h]
    · simp [h, ih]

theorem dget_dset_self {α : Type} (d : Doc α) (k : String) (v : α) :
    dget (dset d k v) k = some v := by
  rw [dset, dget_append, dget_dremove_self, dget_cons]
  simp

theorem dget_dset_ne {α : Type} (d : Doc α) (k k' : String) (v : α) (h : k' ≠ k) :
    dget (dset d k v) k' = dget d k' := by
  rw [dset, dget_append]
  have h2 : dget ([(k, v)] : Doc α) k' = none := by
    rw [dget_cons, if_neg (fun he => h he.symm)]; rfl
  rw [h2]
  induction d with
  | nil => rfl
  | cons p t ih =>
    rw [dremove_cons]
    by_cases hp : p.1 = k
    · rw [if_pos hp, dget_cons, if_neg (hp ▸ fun he => h he.symm)]
      exact ih
    · rw [if_neg hp, dget_cons, dget_cons]
      by_cases hk : p.1 = k'
      · simp [hk]
      · rw [if_neg hk, if_neg hk]; exact ih

theorem dremove_dset_self {α : Type} (d : Doc α) (k : String) (v : α) :
    dremove (dset d k v) k = dremove d k := by
  rw [dset, dremove, List.filter_append]
  have h1 : List.filter (fun p => !decide (p.1 = k)) ([(k, v)] : Doc α) = [] := by
    simp [List.filter_cons]
  have h2 : List.filter (fun p => !decide (p.1 = k)) (dremove d k) = dremove d k := by
    rw [List.filter_eq_self]
    intro p hp
    rw [dremove, List.mem_filter] at hp
    exact hp.2
  rw [h1, List.append_nil]
  exact h2

theorem dget_eq_none_of_dhas_false {α : Type} {d : Doc α} {k : String}
    (h : dhas d k = false) : dget d k = none := by
  induction d with
  | nil => rfl
  | cons p t ih =>
    rw [dhas_cons, Bool.or_eq_false_iff, decide_eq_false_iff_not] at h
    rw [dget_cons, if_neg h.1]
    exact ih h.2

theorem dhas_false_forall {α : Type} {d : Doc α} {k : String}
    (h : dhas d k = false) : ∀ p ∈ d, p.1 ≠ k := by
  intro p hp
  rw [dhas, List.any_eq_false] at h
  have := h p hp
  simpa using this

theorem dhas_forall_false {α : Type} {d : Doc α} {k : String}
    (h : ∀ p ∈ d, p.1 ≠ k) : dhas d k = false := by
  rw [dhas, List.any_eq_false]
  intro p hp
  simpa using h p hp


theorem dget_apply_set_not_mem {α : Type} (sd : Doc α) :
    ∀ (d : Doc α) (k : String), (∀ p ∈ sd, p.1 ≠ k) →
      dget (apply_set d sd) k = dget d k := by
  induction sd with
  | nil => intro d k h; rfl
  | cons q t ih =>
    intro d k h
    have hq : q.1 ≠ k := h q (List.mem_cons_self q t)
    have ht : ∀ p ∈ t, p.1 ≠ k := fun p hp => h p (List.mem_cons_of_mem q hp)
    show dget (apply_set (dset d q.1 q.2) t) k = dget d k
    rw [ih (dset d q.1 q.2) k ht, dget_dset_ne _ _ _ _ (fun he => hq he.symm)]

theorem dget_apply_set_mem {α : Type} (sd : Doc α) :
    ∀ (d : Doc α) (k : String), (sd.map Prod.fst).Nodup → dhas sd k = true →
      dget (apply_set d sd) k = dget sd k := by
  induction sd with
  | nil => intro d k _ h; simp [dhas] at h
  | cons q t ih =>
    intro d k hnd h
    rw [List.map_cons, List.nodup_cons] at hnd
    by_cases hq : q.1 = k
    · have ht : ∀ p ∈ t, p.1 ≠ k := by
        intro p hp he
        exact hnd.1 (hq ▸ he ▸ List.mem_map_of_mem Prod.fst hp)
      show dget (apply_set (dset d q.1 q.2) t) k = dget (q :: t) k
      rw [dget_apply_set_not_mem t (dset d q.1 q.2) k ht, hq, dget_dset_self,
        dget_cons, if_pos hq]
    · rw [dhas_cons, Bool.or_eq_true, decide_eq_true_eq] at h
      rcases h with h | h
      · exact absurd h hq
      · show dget (apply_set (dset d q.1 q.2) t) k = dget (q :: t) k
        rw [ih (dset d q.1 q.2) k hnd.2 h, dget_cons, if_neg hq]

theorem store_get_cons {α : Type} (p : String × Doc α) (t : StoreMap α) (pid : String) :
    store_get (p :: t) pid = if p.1 = pid then some p.2 else store_get t pid := by
  by_cases h : p.1 = pid
  · simp [store_get, List.find?_cons_of_pos, h]
  · simp [store_get, List.find?_cons_of_neg, h]

theorem store_get_map_set {α : Type} (st : StoreMap α) (pid : String) (d2 : Doc α) :
    ∀ d, store_get st pid = some d →
      store_get (st.map (fun p => if p.1 = pid then (pid, d2) else p)) pid = some d2 := by
  induction st with
  | nil => intro d h; simp [store_get] at h
  | cons p t ih =>
    intro d h
    by_cases hp : p.1 = pid
    · rw [List.map_cons, if_pos hp, store_get_cons, if_pos rfl]
    · rw [store_get_cons, if_neg hp] at h
      rw [List.map_cons, if_neg hp, store_get_cons, if_neg hp]
      exact ih d h


theorem charsLt_irrefl : ∀ l : List Char, charsLt l l = false
  | [] => rfl
  | a :: as => by
    simp only [charsLt, Bool.or_eq_false_iff, Bool.and_eq_false_iff]
    exact ⟨by simp, Or.inr (charsLt_irrefl as)⟩

theorem charsLt_trans : ∀ (a b c : List Char),
    charsLt a b = true → charsLt b c = true → charsLt a c = true
  | [], _ :: _, _ :: _, _, _ => rfl
  | _ :: _, [], _, h1, _ => by simp [charsLt] at h1
  | [], [], _, h1, _ => by simp [charsLt] at h1
  | _, _ :: _, [], _, h2 => by simp [charsLt] at h2
  | a :: as, b :: bs, c :: cs, h1, h2 => by
    simp only [charsLt, Bool.or_eq_true, Bool.and_eq_true, decide_eq_true_eq] at h1 h2 ⊢
    rcases h1 with h1 | ⟨hab, h1⟩
    · rcases h2 with h2 | ⟨hbc, h2⟩
      · exact Or.inl (lt_trans h1 h2)
      · exact Or.inl (hbc ▸ h1)
    · rcases h2 with h2 | ⟨hbc, h2⟩
      · exact Or.inl (hab ▸ h2)
      · exact Or.inr ⟨hab.trans hbc, charsLt_trans as bs cs h1 h2⟩

theorem charsLt_connex : ∀ (a b : List Char),
    charsLt a b = false → charsLt b a = false → a = b
  | [], [], _, _ => rfl
  | [], _ :: _, h1, _ => by simp [charsLt] at h1
  | _ :: _, [], _, h2 => by simp [charsLt] at h2
  | a :: as, b :: bs, h1, h2 => by
    simp only [charsLt, Bool.or_eq_false_iff, Bool.and_eq_false_iff,
      decide_eq_false_iff_not] at h1 h2
    have hab : a = b := le_antisymm (le_of_not_lt h2.1) (le_of_not_lt h1.1)
    subst hab
    rcases h1.2 with h | h
    · exact absurd rfl h
    · rcases h2.2 with h' | h'
      · exact absurd rfl h'
      · exact congrArg (a :: ·) (charsLt_connex as bs h h')

theorem charsLt_asymm {a b : List Char} (h : charsLt a b = true) : charsLt b a = false := by
  by_contra hc
  have hba : charsLt b a = true := by
    cases hx : charsLt b a
    · exact absurd hx hc
    · rfl
  have := charsLt_trans a b a h hba
  rw [charsLt_irrefl] at this
  exact Bool.false_ne_true this

theorem strLt_irrefl (s : String) : strLt s s = false := charsLt_irrefl s.data

theorem strLt_trans {a b c : String} (h1 : strLt a b = true) (h2 : strLt b c = true) :
    strLt a c = true := charsLt_trans a.data b.data c.data h1 h2

theorem strLt_asymm {a b : String} (h : strLt a b = true) : strLt b a = false :=
  charsLt_asymm h

theorem strLt_connex {a b : String} (h1 : strLt a b = false) (h2 : strLt b a = false) :
    a = b := by
  cases a with
  | mk da =>
    cases b with
    | mk db => exact congrArg String.mk (charsLt_connex da db h1 h2)

theorem strLe_refl (s : String) : strLe s s = true := by
  simp [strLe, strLt_irrefl]

theorem strLe_of_lt {a b : String} (h : strLt a b = true) : strLe a b = true := by
  simp [strLe, strLt_asymm h]

theorem strLt_of_le_of_ne {a b : String} (h1 : strLe a b = true) (h2 : a ≠ b) :
    strLt a b = true := by
  simp only [strLe, Bool.not_eq_true'] at h1
  cases hx : strLt a b
  · exact absurd (strLt_connex hx h1) h2
  · rfl

theorem strLe_trans {a b c : String} (h1 : strLe a b = true) (h2 : strLe b c = true) :
    strLe a c = true := by
  simp only [strLe, Bool.not_eq_true'] at h1 h2 ⊢
  cases hx : strLt c a
  · rfl
  · by_cases hab : a = b
    · subst hab
      exact absurd hx (by simp [h2])
    · have hlt := strLt_of_le_of_ne (by simp [strLe, h1]) hab
      by_cases hbc : b = c
      · subst hbc
        rw [strLt_asymm hlt] at hx
        exact (Bool.false_ne_true hx).elim
      · have hlt2 := strLt_of_le_of_ne (by simp [strLe, h2]) hbc
        have := strLt_trans hlt hlt2
        rw [strLt_asymm this] at hx
        exact (Bool.false_ne_true hx).elim

theorem strLe_total (a b : String) : strLe a b = true ∨ strLe b a = true := by
  simp only [strLe, Bool.not_eq_true']
  cases hx : strLt b a
  · exact Or.inl rfl
  · exact Or.inr (strLt_asymm hx)


theorem docLe_trans (s o : String) (a b c : ScrollDoc)
    (h1 : docLe s o a b = true) (h2 : docLe s o b c = true) : docLe s o a c = true := by
  unfold docLe at h1 h2 ⊢
  by_cases hab : a.fields s = b.fields s <;> by_cases hbc : b.fields s = c.fields s
  · rw [if_pos hab] at h1
    rw [if_pos hbc] at h2
    rw [if_pos (hab.trans hbc)]
    exact strLe_trans h1 h2
  · have hac : ¬ a.fields s = c.fields s := fun h => hbc (hab.symm.trans h)
    rw [if_neg hbc] at h2
    rw [if_neg hac, hab]
    exact h2
  · have hac : ¬ a.fields s = c.fields s := fun h => hab (h.trans hbc.symm)
    rw [if_neg hab] at h1
    rw [if_neg hac, ← hbc]
    exact h1
  · by_cases ho : o = "desc"
    · rw [if_neg hab, if_pos ho] at h1
      rw [if_neg hbc, if_pos ho] at h2
      have hca := strLt_trans h2 h1
      have hac : ¬ a.fields s = c.fields s := by
        intro h
        rw [h, strLt_irrefl] at hca
        exact Bool.false_ne_true hca
      rw [if_neg hac, if_pos ho]
      exact hca
    · rw [if_neg hab, if_neg ho] at h1
      rw [if_neg hbc, if_neg ho] at h2
      have hax := strLt_trans h1 h2
      have hac : ¬ a.fields s = c.fields s := by
        intro h
        rw [h, strLt_irrefl] at hax
        exact Bool.false_ne_true hax
      rw [if_neg hac, if_neg ho]
      exact hax

theorem docLe_total (s o : String) (a b : ScrollDoc) :
    docLe s o a b = true ∨ docLe s o b a = true := by
  unfold docLe
  by_cases hab : a.fields s = b.fields s
  · rw [if_pos hab, if_pos hab.symm]
    exact strLe_total a.id b.id
  · have hba : ¬ b.fields s = a.fields s := fun h => hab h.symm
    rw [if_neg hab, if_neg hba]
    by_cases ho : o = "desc"
    · rw [if_pos ho, if_pos ho]
      cases hx : strLt (b.fields s) (a.fields s)
      · cases hy : strLt (a.fields s) (b.fields s)
        · exact absurd (strLt_connex hx hy) hba
        · exact Or.inr rfl
      · exact Or.inl rfl
    · rw [if_neg ho, if_neg ho]
      cases hx : strLt (a.fields s) (b.fields s)
      · cases hy : strLt (b.fields s) (a.fields s)
        · exact absurd (strLt_connex hx hy) hab
        · exact Or.inr rfl
      · exact Or.inl rfl


/-! ### Pagination-engine lemmas -/

theorem getLast?_take {α : Type} (l : List α) (n : Nat) (h1 : 1 ≤ n)
    (h2 : n ≤ l.length) : (l.take n).getLast? = l[n - 1]? := by
  rw [List.getLast?_eq_getElem?, List.length_take, Nat.min_eq_left h2,
    List.getElem?_take_of_lt (by omega)]

theorem scrollSorted_perm (coll : List ScrollDoc) (name after : Option String)
    (sort_by ord : String) :
    (scrollSorted coll name after sort_by ord).Perm (scrollMatched coll name after) :=
  List.perm_insertionSort _ _

theorem length_scrollSorted (coll : List ScrollDoc) (name after : Option String)
    (sort_by ord : String) :
    (scrollSorted coll name after sort_by ord).length =
      (scrollMatched coll name after).length :=
  (scrollSorted_perm coll name after sort_by ord).length_eq

theorem runScrollQuery_no_more (coll : List ScrollDoc) (name after : Option String)
    (limit : Int) (sort_by ord : String)
    (h : (scrollSorted coll name after sort_by ord).length ≤ limit.toNat) :
    runScrollQuery coll name after limit sort_by ord =
      ⟨scrollSorted coll name after sort_by ord, limit, false, none⟩ := by
  unfold runScrollQuery
  rw [List.take_of_length_le (le_trans h (Nat.le_succ _))]
  rw [if_neg (by omega)]

theorem runScrollQuery_more (coll : List ScrollDoc) (name after : Option String)
    (limit : Int) (sort_by ord : String)
    (h : limit.toNat < (scrollSorted coll name after sort_by ord).length) :
    runScrollQuery coll name after limit sort_by ord =
      ⟨(scrollSorted coll name after sort_by ord).take limit.toNat, limit, true,
        (((scrollSorted coll name after sort_by ord).take limit.toNat).getLast?).map
          ScrollDoc.id⟩ := by
  unfold runScrollQuery
  rw [List.take_take]
  have hmin : min limit.toNat (limit.toNat + 1) = limit.toNat := by omega
  rw [hmin]
  rw [if_pos (by rw [List.length_take]; omega)]

theorem get_platforms_ok {τ : Type} (coll : List ScrollDoc) (token : τ)
    (name : Option String) (after_id : Option String) (limit : Int)
    (sort_by ord : String)
    (hl1 : 1 ≤ limit) (hl2 : limit ≤ 100)
    (hs : ALLOWED_SORT_FIELDS.contains sort_by = true)
    (ho : ord = "asc" ∨ ord = "desc")
    (ha : ∀ a, after_id = some a → isValidObjectId a = true) :
    get_platforms (Except.ok coll) token name after_id (some limit) (some sort_by)
        (some ord) =
      Except.ok (runScrollQuery coll name after_id limit sort_by ord) := by
  have hov : (decide (ord = "asc") || decide (ord = "desc")) = true := by
    rcases ho with h | h <;> subst h <;> simp
  unfold get_platforms execute_infinite_scroll_query
  simp only [Option.getD_some]
  rw [if_neg (by omega), if_neg (by omega), hs, hov]
  cases after_id with
  | none => simp
  | some a => simp [ha a rfl]

/-! ### Service-layer lemmas -/

theorem dget_isSome_of_dhas {α : Type} {d : Doc α} {k : String}
    (h : dhas d k = true) : ∃ v, dget d k = some v := by
  induction d with
  | nil => simp [dhas] at h
  | cons p t ih =>
    rw [dhas_cons, Bool.or_eq_true, decide_eq_true_eq] at h
    rw [dget_cons]
    by_cases hp : p.1 = k
    · exact ⟨p.2, by rw [if_pos hp]⟩
    · rw [if_neg hp]
      exact ih (h.resolve_left hp)

theorem restricted_contains_false {k : String} (h1 : k ≠ "_id") (h2 : k ≠ "created")
    (h3 : k ≠ "saved") : PlatformService.restricted_fields.contains k = false := by
  simp [PlatformService.restricted_fields, List.contains_eq_any_beq, h1, h2, h3]

theorem validate_update_data_ok {α : Type} {data : Doc α}
    (hid : dhas data "_id" = false) (hcr : dhas data "created" = false)
    (hsv : dhas data "saved" = false) :
    PlatformService.validate_update_data data = Except.ok () := by
  unfold PlatformService.validate_update_data PlatformService.restricted_fields
  rw [List.find?_cons_of_neg _ (by simp [hid]), List.find?_cons_of_neg _ (by simp [hcr]),
    List.find?_cons_of_neg _ (by simp [hsv]), List.find?_nil]

theorem validate_update_data_error_spec {α : Type} {data : Doc α} {err : SvcError}
    (h : PlatformService.validate_update_data data = Except.error err) :
    ∃ fld, fld ∈ PlatformService.restricted_fields ∧ dhas data fld = true ∧
      err = SvcError.forbidden ("Cannot update " ++ fld ++ " field") := by
  unfold PlatformService.validate_update_data at h
  cases hf : PlatformService.restricted_fields.find? (fun fld => dhas data fld) with
  | none => rw [hf] at h; exact absurd h (by simp)
  | some fld =>
    rw [hf] at h
    refine ⟨fld, List.mem_of_find?_eq_some hf, List.find?_some hf, ?_⟩
    simp only [Except.error.injEq] at h
    exact h.symm

theorem filter_not_restricted {α : Type} {data : Doc α}
    (hid : dhas data "_id" = false) (hcr : dhas data "created" = false)
    (hsv : dhas data "saved" = false) :
    data.filter (fun p => !PlatformService.restricted_fields.contains p.1) = data := by
  rw [List.filter_eq_self]
  intro p hp
  rw [restricted_contains_false (dhas_false_forall hid p hp)
    (dhas_false_forall hcr p hp) (dhas_false_forall hsv p hp)]
  rfl

/-! ### Claim theorems -/

/-- Claim C3: for every integer limit outside [1,100] the list operation
fails with a `ValidationError` before any store access (the result is the
same for every store outcome `collE`, including a faulting store), with
message `limit must be >= 1` when `limit < 1` and `limit must be <= 100`
when `limit > 100`; when `limit` is absent it defaults to 10. -/
theorem get_platforms_invalid_limit {τ : Type}
    (collE : Except String (List ScrollDoc)) (token : τ)
    (name after_id : Option String) (sort_by ord : Option String) (limit : Int) :
    (limit < 1 →
      get_platforms collE token name after_id (some limit) sort_by ord =
        Except.error (SvcError.badRequest "limit must be >= 1")) ∧
    (100 < limit →
      get_platforms collE token name after_id (some limit) sort_by ord =
        Except.error (SvcError.badRequest "limit must be <= 100")) ∧
    get_platforms collE token name after_id none sort_by ord =
      get_platforms collE token name after_id (some 10) sort_by ord := by
  refine ⟨fun h1 => ?_, fun h2 => ?_, rfl⟩
  · unfold get_platforms execute_infinite_scroll_query
    simp only [Option.getD_some]
    rw [if_pos h1]
  · unfold get_platforms execute_infinite_scroll_query
    simp only [Option.getD_some]
    rw [if_neg (by omega), if_pos h2]

/-- Claim C3 witness: `limit = 0` is rejected with the exact message even
when the store would fault, and `limit = 101` with the other message. -/
theorem get_platforms_invalid_limit_witness :
    get_platforms (Except.error "db down") () none none (some 0) none none =
      Except.error (SvcError.badRequest "limit must be >= 1") ∧
    get_platforms (Except.error "db down") () none none (some 101) none none =
      Except.error (SvcError.badRequest "limit must be <= 100") :=
  ⟨(get_platforms_invalid_limit (Except.error "db down") () none none none none 0).1
      (by decide),
    (get_platforms_invalid_limit (Except.error "db down") () none none none none
      101).2.1 (by decide)⟩

/-- Claim C4: for every `sort_by` outside the allow-list
`{name, description, status, created.at_time, saved.at_time}` the list
operation fails with a `ValidationError` whose message names the allowed set
(each allowed field occurs in the message), independently of the store
outcome; when `sort_by` is absent it defaults to `name`. -/
theorem get_platforms_invalid_sort_by {τ : Type}
    (collE : Except String (List ScrollDoc)) (token : τ)
    (name after_id : Option String) (ord : Option String) (limit : Int)
    (sort_by : String) (hl1 : 1 ≤ limit) (hl2 : limit ≤ 100)
    (hs : ALLOWED_SORT_FIELDS.contains sort_by = false) :
    get_platforms collE token name after_id (some limit) (some sort_by) ord =
      Except.error (SvcError.badRequest (sortByErrorMsg ALLOWED_SORT_FIELDS)) ∧
    (∀ f ∈ ALLOWED_SORT_FIELDS, ∃ pre post : String,
      sortByErrorMsg ALLOWED_SORT_FIELDS = pre ++ (f ++ post)) ∧
    get_platforms collE token name after_id (some limit) none ord =
      get_platforms collE token name after_id (some limit) (some "name") ord := by
  refine ⟨?_, ?_, rfl⟩
  · unfold get_platforms execute_infinite_scroll_query
    simp only [Option.getD_some]
    rw [if_neg (by omega), if_neg (by omega), hs]
    simp
  · intro f hf
    fin_cases hf
    · exact ⟨"sort_by must be one of ",
        ", description, status, created.at_time, saved.at_time", by decide⟩
    · exact ⟨"sort_by must be one of name, ",
        ", status, created.at_time, saved.at_time", by decide⟩
    · exact ⟨"sort_by must be one of name, description, ",
        ", created.at_time, saved.at_time", by decide⟩
    · exact ⟨"sort_by must be one of name, description, status, ",
        ", saved.at_time", by decide⟩
    · exact ⟨"sort_by must be one of name, description, status, created.at_time, ",
        "", by decide⟩

/-- Claim C4 witness: `sort_by = "invalid_field"` is rejected naming the
allowed set, even when the store would fault. -/
theorem get_platforms_invalid_sort_by_witness :
    get_platforms (Except.error "db down") () none none (some 10)
        (some "invalid_field") none =
      Except.error (SvcError.badRequest (sortByErrorMsg ALLOWED_SORT_FIELDS)) :=
  (get_platforms_invalid_sort_by (Except.error "db down") () none none none 10
    "invalid_field" (by decide) (by decide) (by decide)).1

/-- Claim C5 counterexample: the claim states the rejection message is
`after_id must be a valid identifier`, but on the concrete malformed cursor
`"invalid"` the operation rejects with the message pinned by the repository's
tests, `after_id must be a valid MongoDB ObjectId`, which differs from the
claimed message. -/
theorem get_platforms_after_id_message_cx :
    get_platforms (Except.ok ([] : List ScrollDoc)) () none (some "invalid") none
        none none =
      Except.error (SvcError.badRequest "after_id must be a valid MongoDB ObjectId") ∧
    "after_id must be a valid MongoDB ObjectId" ≠ "after_id must be a valid identifier" :=
  ⟨rfl, by decide⟩

/-- Claim C5 (amended): for every `after_id` string that does not parse as a
MongoDB ObjectId (24 hexadecimal characters), the list operation fails with a
`ValidationError` with message `after_id must be a valid MongoDB ObjectId`
(not `after_id must be a valid identifier`), independently of the store
outcome; when `after_id` is absent no cursor predicate is applied (the
cursor predicate is identically true). -/
theorem get_platforms_invalid_after_id {τ : Type}
    (collE : Except String (List ScrollDoc)) (token : τ)
    (name : Option String) (a : String) (limit : Option Int)
    (sort_by ord : Option String)
    (hl1 : 1 ≤ limit.getD 10) (hl2 : limit.getD 10 ≤ 100)
    (hs : ALLOWED_SORT_FIELDS.contains (sort_by.getD "name") = true)
    (ho : ord.getD "asc" = "asc" ∨ ord.getD "asc" = "desc")
    (ha : isValidObjectId a = false) :
    get_platforms collE token name (some a) limit sort_by ord =
      Except.error (SvcError.badRequest "after_id must be a valid MongoDB ObjectId") ∧
    ∀ d, cursorPred none d = true := by
  have hov : (decide (ord.getD "asc" = "asc") || decide (ord.getD "asc" = "desc")) = true := by
    rcases ho with h | h <;> rw [h] <;> simp
  refine ⟨?_, fun d => rfl⟩
  unfold get_platforms execute_infinite_scroll_query
  rw [if_neg (by omega), if_neg (by omega), hs, hov]
  simp [ha]

/-- Claim C5 witness: the malformed cursor `"invalid"` is rejected with the
amended message while the other parameters take their defaults. -/
theorem get_platforms_invalid_after_id_witness :
    get_platforms (Except.error "db down") () none (some "invalid") none none none =
      Except.error (SvcError.badRequest "after_id must be a valid MongoDB ObjectId") :=
  (get_platforms_invalid_after_id (Except.error "db down") () none "invalid" none
    none none (by decide) (by decide) (by decide) (Or.inl rfl) (by decide)).1

/-- Claim C6: for every input payload the create operation silently removes
any client-supplied `_id` (no error), stamps both `created` and `saved` with
the caller's breadcrumb verbatim, persists exactly that document, and
returns the fresh store-assigned id; in particular a create with a
client-supplied `_id` ignores the supplied value entirely. -/
theorem create_platform_ignores_client_id {α τ : Type}
    (createDocument : Doc α → Except String String) (data : Doc α) (token : τ)
    (breadcrumb : α) :
    (PlatformService.create_platform createDocument data token breadcrumb =
      match createDocument (PlatformService.create_prepare data breadcrumb) with
      | Except.ok platform_id => Except.ok platform_id
      | Except.error e =>
          Except.error (SvcError.internal ("Failed to create platform: " ++ e))) ∧
    dget (PlatformService.create_prepare data breadcrumb) "_id" = none ∧
    dget (PlatformService.create_prepare data breadcrumb) "created" = some breadcrumb ∧
    dget (PlatformService.create_prepare data breadcrumb) "saved" = some breadcrumb ∧
    (∀ v : α, PlatformService.create_prepare (dset data "_id" v) breadcrumb =
      PlatformService.create_prepare data breadcrumb) ∧
    (∀ i, createDocument (PlatformService.create_prepare data breadcrumb) = Except.ok i →
      PlatformService.create_platform createDocument data token breadcrumb =
        Except.ok i) := by
  refine ⟨rfl, ?_, ?_, ?_, ?_, ?_⟩
  · unfold PlatformService.create_prepare
    rw [dget_dset_ne _ _ _ _ (by decide), dget_dset_ne _ _ _ _ (by decide),
      dget_dremove_self]
  · unfold PlatformService.create_prepare
    rw [dget_dset_ne _ _ _ _ (by decide), dget_dset_self]
  · unfold PlatformService.create_prepare
    rw [dget_dset_self]
  · intro v
    unfold PlatformService.create_prepare
    rw [dremove_dset_self]
  · intro i h
    simp [PlatformService.create_platform, h]

/-- Claim C7: for every update payload containing any of the restricted
fields (`_id`, `created`, `saved`), the update operation fails with a
`ForbiddenError` naming that field, for every store and store-update
function — so no store write is issued and the returned store state is
exactly the input state. -/
theorem update_platform_restricted_fields_forbidden {α τ σ : Type}
    (updateDocument : σ → String → Doc α → Except String (Option (Doc α)) × σ)
    (st : σ) (platform_id : String) (data : Doc α) (token : τ) (breadcrumb : α)
    (h : dhas data "_id" = true ∨ dhas data "created" = true ∨
      dhas data "saved" = true) :
    ∃ fld, fld ∈ PlatformService.restricted_fields ∧ dhas data fld = true ∧
      PlatformService.update_platform updateDocument st platform_id data token
          breadcrumb =
        (Except.error (SvcError.forbidden ("Cannot update " ++ fld ++ " field")), st) := by
  cases hid : dhas data "_id" with
  | true =>
    refine ⟨"_id", by simp [PlatformService.restricted_fields], hid, ?_⟩
    have hv : PlatformService.validate_update_data data =
        Except.error (SvcError.forbidden ("Cannot update " ++ "_id" ++ " field")) := by
      unfold PlatformService.validate_update_data PlatformService.restricted_fields
      rw [List.find?_cons_of_pos _ (by simp [hid])]
    simp [PlatformService.update_platform, hv]
  | false =>
    cases hcr : dhas data "created" with
    | true =>
      refine ⟨"created", by simp [PlatformService.restricted_fields], hcr, ?_⟩
      have hv : PlatformService.validate_update_data data =
          Except.error (SvcError.forbidden ("Cannot update " ++ "created" ++ " field")) := by
        unfold PlatformService.validate_update_data PlatformService.restricted_fields
        rw [List.find?_cons_of_neg _ (by simp [hid]),
          List.find?_cons_of_pos _ (by simp [hcr])]
      simp [PlatformService.update_platform, hv]
    | false =>
      cases hsv : dhas data "saved" with
      | true =>
        refine ⟨"saved", by simp [PlatformService.restricted_fields], hsv, ?_⟩
        have hv : PlatformService.validate_update_data data =
            Except.error (SvcError.forbidden ("Cannot update " ++ "saved" ++ " field")) := by
          unfold PlatformService.validate_update_data PlatformService.restricted_fields
          rw [List.find?_cons_of_neg _ (by simp [hid]),
            List.find?_cons_of_neg _ (by simp [hcr]),
            List.find?_cons_of_pos _ (by simp [hsv])]
        simp [PlatformService.update_platform, hv]
      | false =>
        rcases h with h | h | h
        · rw [hid] at h; exact absurd h (by simp)
        · rw [hcr] at h; exact absurd h (by simp)
        · rw [hsv] at h; exact absurd h (by simp)

/-- Claim C7 witness: a payload containing `created` is rejected naming
`created`, with the store state returned unchanged. -/
theorem update_platform_restricted_fields_forbidden_witness :
    ∃ fld, fld ∈ PlatformService.restricted_fields ∧
      dhas [("created", 1), ("name", 2)] fld = true ∧
      PlatformService.update_platform
          (fun (st : StoreMap Nat) pid sd => mongo_update_document st pid sd)
          [] "123" [("created", 1), ("name", 2)] () 9 =
        (Except.error (SvcError.forbidden ("Cannot update " ++ fld ++ " field")), []) :=
  update_platform_restricted_fields_forbidden _ [] "123" [("created", 1), ("name", 2)]
    () 9 (Or.inr (Or.inl (by decide)))

/-- Claim C6 witness: a concrete payload carrying `_id` is stripped before
persisting. -/
theorem create_platform_ignores_client_id_witness :
    dget (PlatformService.create_prepare [("_id", 7), ("name", 3)] 9) "_id" = none :=
  (create_platform_ignores_client_id (fun _ => Except.ok "123")
    [("_id", 7), ("name", 3)] () 9).2.1

/-- Claim C8: for every update payload containing only non-restricted fields
(dictionary keys unique), run against the concrete document store: if the
target id exists, the operation applies the payload as a partial field-set
with `saved` force-set to the new breadcrumb and returns the full
post-update document (also the one persisted); if the target id does not
exist it raises `NotFoundError` — and it raises `NotFoundError` exactly when
the store resolves no document for the id. -/
theorem update_platform_partial_update_or_not_found {α τ : Type}
    (st : StoreMap α) (platform_id : String) (data : Doc α) (token : τ)
    (breadcrumb : α)
    (hid : dhas data "_id" = false) (hcr : dhas data "created" = false)
    (hsv : dhas data "saved" = false) (hnd : (data.map Prod.fst).Nodup) :
    (store_get st platform_id = none →
      PlatformService.update_platform mongo_update_document st platform_id data token
          breadcrumb =
        (Except.error (SvcError.notFound ("Platform " ++ platform_id ++ " not found")),
          st)) ∧
    (∀ d, store_get st platform_id = some d →
      ∃ st2,
        PlatformService.update_platform mongo_update_document st platform_id data token
            breadcrumb =
          (Except.ok (apply_set d (dset data "saved" breadcrumb)), st2) ∧
        store_get st2 platform_id = some (apply_set d (dset data "saved" breadcrumb)) ∧
        dget (apply_set d (dset data "saved" breadcrumb)) "saved" = some breadcrumb ∧
        (∀ k, dhas data k = true →
          dget (apply_set d (dset data "saved" breadcrumb)) k = dget data k) ∧
        (∀ k, dhas data k = false → k ≠ "saved" →
          dget (apply_set d (dset data "saved" breadcrumb)) k = dget d k)) ∧
    ((PlatformService.update_platform mongo_update_document st platform_id data token
        breadcrumb).1 =
        Except.error (SvcError.notFound ("Platform " ++ platform_id ++ " not found")) ↔
      store_get st platform_id = none) := by
  have hv := validate_update_data_ok hid hcr hsv
  have hfil := filter_not_restricted hid hcr hsv
  have hsd : dset data "saved" breadcrumb = data ++ [("saved", breadcrumb)] := by
    rw [dset, dremove_of_dhas_false hsv]
  have hkeys : ("saved" : String) ∉ data.map Prod.fst := by
    intro hmem
    rcases List.mem_map.mp hmem with ⟨p, hp, he⟩
    exact dhas_false_forall hsv p hp he
  have hsdnd : ((dset data "saved" breadcrumb).map Prod.fst).Nodup := by
    rw [hsd, List.map_append]
    refine List.nodup_append.mpr ⟨hnd, by simp, ?_⟩
    intro a ha hb
    simp at hb
    subst hb
    exact hkeys ha
  have hhas_saved : dhas (dset data "saved" breadcrumb) "saved" = true := by
    rw [hsd]
    simp [dhas, List.any_append]
  have hget_saved : dget (dset data "saved" breadcrumb) "saved" = some breadcrumb :=
    dget_dset_self data "saved" breadcrumb
  have hupd : ∀ d, store_get st platform_id = some d →
      PlatformService.update_platform mongo_update_document st platform_id data token
          breadcrumb =
        (Except.ok (apply_set d (dset data "saved" breadcrumb)),
          st.map (fun p => if p.1 = platform_id
            then (platform_id, apply_set d (dset data "saved" breadcrumb)) else p)) := by
    intro d hd
    simp only [PlatformService.update_platform, hv, hfil, mongo_update_document, hd]
  have hupd_none : store_get st platform_id = none →
      PlatformService.update_platform mongo_update_document st platform_id data token
          breadcrumb =
        (Except.error (SvcError.notFound ("Platform " ++ platform_id ++ " not found")),
          st) := by
    intro hnone
    simp only [PlatformService.update_platform, hv, hfil, mongo_update_document, hnone]
  refine ⟨hupd_none, ?_, ?_⟩
  · intro d hd
    refine ⟨_, hupd d hd, store_get_map_set st platform_id _ d hd, ?_, ?_, ?_⟩
    · rw [dget_apply_set_mem _ d "saved" hsdnd hhas_saved]
      exact hget_saved
    · intro k hk
      have hhask : dhas (dset data "saved" breadcrumb) k = true := by
        rw [hsd]
        simp only [dhas, List.any_append, Bool.or_eq_true]
        exact Or.inl hk
      rw [dget_apply_set_mem _ d k hsdnd hhask, hsd, dget_append]
      rcases dget_isSome_of_dhas hk with ⟨v, hvk⟩
      rw [hvk]
      rfl
    · intro k hk hks
      refine dget_apply_set_not_mem _ d k ?_
      intro p hp
      rw [hsd] at hp
      rcases List.mem_append.mp hp with hp | hp
      · exact dhas_false_forall hk p hp
      · simp at hp
        rw [hp]
        exact fun he => hks he.symm
  · cases hstore : store_get st platform_id with
    | none => simp [hupd_none hstore, hstore]
    | some d => simp [hupd d hstore, hstore]

/-- Claim C8 witness: updating an existing document with a clean payload
returns the stored post-update document with `saved` re-stamped; updating a
missing id is `NotFoundError`. -/
theorem update_platform_partial_update_or_not_found_witness :
    dhas [("name", 5)] "_id" = false ∧
    (PlatformService.update_platform mongo_update_document
        ([("123", [("name", 1), ("saved", 0)])] : StoreMap Nat) "999" [("name", 5)] ()
        7).1 =
      Except.error (SvcError.notFound ("Platform " ++ "999" ++ " not found")) :=
  ⟨by decide,
    (update_platform_partial_update_or_not_found
      ([("123", [("name", 1), ("saved", 0)])] : StoreMap Nat) "999" [("name", 5)] () 7
      (by decide) (by decide) (by decide) (by decide)).2.2.mpr (by decide)⟩

/-- Claim C9 counterexample: create's `InternalError` message is not generic
— it embeds the underlying store fault.  Two different store faults produce
two different client-visible messages, so the underlying cause is exposed,
contradicting the claim for the create operation. -/
theorem create_platform_error_message_cx :
    PlatformService.create_platform (fun _ => Except.error "boom1") ([] : Doc Nat) () 0 =
      Except.error (SvcError.internal ("Failed to create platform: " ++ "boom1")) ∧
    PlatformService.create_platform (fun _ => Except.error "boom2") ([] : Doc Nat) () 0 =
      Except.error (SvcError.internal ("Failed to create platform: " ++ "boom2")) ∧
    ("Failed to create platform: " ++ "boom1" : String) ≠
      "Failed to create platform: " ++ "boom2" :=
  ⟨rfl, rfl, by decide⟩

/-- Claim C9 (amended): every store fault in create, list, read or update is
caught at the service boundary and re-raised as an `InternalError`; for
list, read and update the message is generic (independent of the fault
text), while create's message embeds the underlying error string. -/
theorem store_faults_wrapped_internal {α τ : Type} (e : String) (data : Doc α)
    (token : τ) (breadcrumb : α) (platform_id : String) (st : StoreMap α)
    (name after_id : Option String) (limit : Option Int) (sort_by ord : Option String)
    (hid : dhas data "_id" = false) (hcr : dhas data "created" = false)
    (hsv : dhas data "saved" = false)
    (hl1 : 1 ≤ limit.getD 10) (hl2 : limit.getD 10 ≤ 100)
    (hs : ALLOWED_SORT_FIELDS.contains (sort_by.getD "name") = true)
    (ho : ord.getD "asc" = "asc" ∨ ord.getD "asc" = "desc")
    (ha : ∀ a, after_id = some a → isValidObjectId a = true) :
    PlatformService.create_platform (fun _ => Except.error e) data token breadcrumb =
      Except.error (SvcError.internal ("Failed to create platform: " ++ e)) ∧
    get_platforms (Except.error e) token name after_id limit sort_by ord =
      Except.error (SvcError.internal "Failed to retrieve platforms") ∧
    PlatformService.get_platform
        (Except.error e : Except String (Option (Doc α))) platform_id token =
      Except.error (SvcError.internal ("Failed to retrieve platform " ++ platform_id)) ∧
    PlatformService.update_platform
        (fun (s : StoreMap α) pid sd => (Except.error e, s)) st platform_id data token
        breadcrumb =
      (Except.error (SvcError.internal ("Failed to update platform " ++ platform_id)),
        st) := by
  have hov : (decide (ord.getD "asc" = "asc") || decide (ord.getD "asc" = "desc")) = true := by
    rcases ho with h | h <;> rw [h] <;> simp
  refine ⟨rfl, ?_, rfl, ?_⟩
  · unfold get_platforms execute_infinite_scroll_query
    rw [if_neg (by omega), if_neg (by omega), hs, hov]
    cases after_id with
    | none => simp
    | some a => simp [ha a rfl]
  · simp only [PlatformService.update_platform, validate_update_data_ok hid hcr hsv]

/-- Claim C9 witness: the amended behaviour at a concrete fault `"db down"`,
clean payload and default list parameters. -/
theorem store_faults_wrapped_internal_witness :
    PlatformService.create_platform (fun _ => Except.error "db down") ([("name", 1)] :
        Doc Nat) () 0 =
      Except.error (SvcError.internal ("Failed to create platform: " ++ "db down")) ∧
    get_platforms (Except.error "db down") () none none none none none =
      Except.error (SvcError.internal "Failed to retrieve platforms") :=
  ⟨(store_faults_wrapped_internal "db down" ([("name", 1)] : Doc Nat) () 0 "123" []
      none none none none none (by decide) (by decide) (by decide) (by decide)
      (by decide) (by decide) (Or.inl rfl) (fun a ha => Option.noConfusion ha)).1,
    (store_faults_wrapped_internal "db down" ([("name", 1)] : Doc Nat) () 0 "123" []
      none none none none none (by decide) (by decide) (by decide) (by decide)
      (by decide) (by decide) (Or.inl rfl) (fun a ha => Option.noConfusion ha)).2.1⟩

/-- Claim C10: the permission stub returns (without raising) for every token
and operation; consequently no service operation can fail with an
authorization `ForbiddenError` — create, read and list never return a
`ForbiddenError` at all, and the only `ForbiddenError` update can return is
the restricted-field rejection (whose message names a restricted field
present in the payload). -/
theorem no_authorization_forbidden :
    (∀ (τ : Type) (token : τ) (operation : String),
      PlatformService.check_permission token operation = ()) ∧
    (∀ (α τ : Type) (createDocument : Doc α → Except String String) (data : Doc α)
      (token : τ) (breadcrumb : α) (msg : String),
      PlatformService.create_platform createDocument data token breadcrumb ≠
        Except.error (SvcError.forbidden msg)) ∧
    (∀ (α τ : Type) (fetch : Except String (Option (Doc α))) (platform_id : String)
      (token : τ) (msg : String),
      PlatformService.get_platform fetch platform_id token ≠
        Except.error (SvcError.forbidden msg)) ∧
    (∀ (τ : Type) (collE : Except String (List ScrollDoc)) (token : τ)
      (name after_id : Option String) (limit : Option Int)
      (sort_by ord : Option String) (msg : String),
      get_platforms collE token name after_id limit sort_by ord ≠
        Except.error (SvcError.forbidden msg)) ∧
    (∀ (α τ σ : Type)
      (updateDocument : σ → String → Doc α → Except String (Option (Doc α)) × σ)
      (st : σ) (platform_id : String) (data : Doc α) (token : τ) (breadcrumb : α)
      (msg : String),
      (PlatformService.update_platform updateDocument st platform_id data token
          breadcrumb).1 = Except.error (SvcError.forbidden msg) →
        ∃ fld, fld ∈ PlatformService.restricted_fields ∧ dhas data fld = true ∧
          msg = "Cannot update " ++ fld ++ " field") := by
  refine ⟨fun τ token operation => rfl, ?_, ?_, ?_, ?_⟩
  · intro α τ createDocument data token breadcrumb msg
    unfold PlatformService.create_platform
    cases createDocument (PlatformService.create_prepare data breadcrumb) <;> simp
  · intro α τ fetch platform_id token msg
    unfold PlatformService.get_platform
    rcases fetch with e | d
    · simp
    · cases d <;> simp
  · intro τ collE token name after_id limit sort_by ord msg
    unfold get_platforms
    rcases hx : execute_infinite_scroll_query collE name after_id (limit.getD 10)
        (sort_by.getD "name") (ord.getD "asc") ALLOWED_SORT_FIELDS with err | page
    · cases err <;> simp
    · simp
  · intro α τ σ updateDocument st platform_id data token breadcrumb msg h
    cases hv : PlatformService.validate_update_data data with
    | error err =>
      rcases validate_update_data_error_spec hv with ⟨fld, hmem, hhas, herr⟩
      have hred : PlatformService.update_platform updateDocument st platform_id data
          token breadcrumb =
          (Except.error (SvcError.forbidden ("Cannot update " ++ fld ++ " field")), st) := by
        simp only [PlatformService.update_platform, hv, herr]
      rw [hred] at h
      have h2 : ("Cannot update " ++ fld ++ " field") = msg := by simpa using h
      exact ⟨fld, hmem, hhas, h2.symm⟩
    | ok u =>
      rcases hu : updateDocument st platform_id
          (dset (data.filter (fun p => !PlatformService.restricted_fields.contains p.1))
            "saved" breadcrumb) with ⟨r, st2⟩
      rcases r with er | od
      · have hred : PlatformService.update_platform updateDocument st platform_id data
            token breadcrumb =
            (Except.error (SvcError.internal ("Failed to update platform " ++
              platform_id)), st2) := by
          simp only [PlatformService.update_platform, hv, hu]
        rw [hred] at h
        simp at h
      · cases od with
        | none =>
          have hred : PlatformService.update_platform updateDocument st platform_id data
              token breadcrumb =
              (Except.error (SvcError.notFound ("Platform " ++ platform_id ++
                " not found")), st2) := by
            simp only [PlatformService.update_platform, hv, hu]
          rw [hred] at h
          simp at h
        | some updated =>
          have hred : PlatformService.update_platform updateDocument st platform_id data
              token breadcrumb = (Except.ok updated, st2) := by
            simp only [PlatformService.update_platform, hv, hu]
          rw [hred] at h
          simp at h

/-- Claim C10 witness: the permission stub at a concrete token and operation,
through the claim theorem. -/
theorem no_authorization_forbidden_witness :
    PlatformService.check_permission ("tok", ["admin"]) "read" = () :=
  no_authorization_forbidden.1 (String × List String) ("tok", ["admin"]) "read"

/-- Claim C2: for every valid limit in [1,100] (and otherwise valid
parameters) a list call succeeds with `{items, limit, has_more, next_cursor}`
where: `items` is the first `limit` rows of the sorted matched documents (so
the `(limit+1)`-th fetched candidate is discarded) and has at most `limit`
elements; `has_more` is true exactly when more than `limit` documents match;
when it is true `next_cursor` is the id of the `limit`-th row and otherwise
`next_cursor` is null; an empty match (empty collection, or an `after_id`
past the last item) yields `items = []`, `has_more = false`,
`next_cursor = null`. -/
theorem get_platforms_page_shape {τ : Type} (coll : List ScrollDoc) (token : τ)
    (name after_id : Option String) (limit : Int) (sort_by ord : String)
    (hl1 : 1 ≤ limit) (hl2 : limit ≤ 100)
    (hs : ALLOWED_SORT_FIELDS.contains sort_by = true)
    (ho : ord = "asc" ∨ ord = "desc")
    (ha : ∀ a, after_id = some a → isValidObjectId a = true) :
    ∃ page,
      get_platforms (Except.ok coll) token name after_id (some limit) (some sort_by)
          (some ord) = Except.ok page ∧
      page.items = (scrollSorted coll name after_id sort_by ord).take limit.toNat ∧
      page.items.length ≤ limit.toNat ∧
      page.limit = limit ∧
      page.has_more = decide (limit.toNat < (scrollMatched coll name after_id).length) ∧
      (limit.toNat < (scrollMatched coll name after_id).length →
        page.next_cursor =
          ((scrollSorted coll name after_id sort_by ord)[limit.toNat - 1]?).map
            ScrollDoc.id) ∧
      ((scrollMatched coll name after_id).length ≤ limit.toNat →
        page.next_cursor = none) ∧
      (scrollMatched coll name after_id = [] →
        page.items = [] ∧ page.has_more = false ∧ page.next_cursor = none) := by
  refine ⟨runScrollQuery coll name after_id limit sort_by ord,
    get_platforms_ok coll token name after_id limit sort_by ord hl1 hl2 hs ho ha,
    ?_⟩
  have hlen := length_scrollSorted coll name after_id sort_by ord
  by_cases hmore : limit.toNat < (scrollSorted coll name after_id sort_by ord).length
  · rw [runScrollQuery_more coll name after_id limit sort_by ord hmore]
    have hm : limit.toNat < (scrollMatched coll name after_id).length := by omega
    refine ⟨rfl, ?_, rfl, by simp [hm], ?_, ?_, ?_⟩
    · rw [List.length_take]; omega
    · intro _
      exact congrArg (Option.map ScrollDoc.id)
        (getLast?_take _ limit.toNat (by omega) (by omega))
    · intro hle; omega
    · intro h0; rw [h0] at hlen; simp only [List.length_nil] at hlen; omega
  · rw [runScrollQuery_no_more coll name after_id limit sort_by ord (by omega)]
    have hm : ¬ limit.toNat < (scrollMatched coll name after_id).length := by omega
    refine ⟨(List.take_of_length_le
        (by omega : (scrollSorted coll name after_id sort_by ord).length ≤
          limit.toNat)).symm,
      by show (scrollSorted coll name after_id sort_by ord).length ≤ limit.toNat; omega,
      rfl, by simp [hm],
      fun hc => absurd hc hm, fun _ => rfl, fun h0 => ⟨?_, rfl, rfl⟩⟩
    show scrollSorted coll name after_id sort_by ord = []
    rw [scrollSorted, h0]
    rfl

/-- Claim C2 witness: the empty collection with default-like valid parameters
yields a successful page. -/
theorem get_platforms_page_shape_witness :
    (1 : Int) ≤ 10 ∧
    ∃ page, get_platforms (Except.ok ([] : List ScrollDoc)) () none none (some 10)
      (some "name") (some "asc") = Except.ok page :=
  ⟨by decide,
    Exists.elim
      (get_platforms_page_shape ([] : List ScrollDoc) () none none 10 "name" "asc"
        (by decide) (by decide) (by decide) (Or.inl rfl)
        (fun a ha => Option.noConfusion ha))
      (fun page h => ⟨page, h.1⟩)⟩

/-! ### Scroll-correctness lemmas -/

theorem sorted_docRel (s o : String) (l : List ScrollDoc) :
    (List.insertionSort (docRel s o) l).Pairwise (docRel s o) := by
  haveI : IsTotal ScrollDoc (docRel s o) := ⟨docLe_total s o⟩
  haveI : IsTrans ScrollDoc (docRel s o) := ⟨docLe_trans s o⟩
  exact List.sorted_insertionSort (docRel s o) l

theorem scrollSorted_id_strict (coll : List ScrollDoc) (name after : Option String)
    (s o : String) (c : String)
    (heq : ∀ d ∈ coll, d.fields s = c)
    (hnodup : (coll.map ScrollDoc.id).Nodup) :
    (scrollSorted coll name after s o).Pairwise
      (fun a b => strLt a.id b.id = true) := by
  have hperm := scrollSorted_perm coll name after s o
  have hmem : ∀ d ∈ scrollSorted coll name after s o, d ∈ coll := by
    intro d hd
    exact (List.mem_filter.mp (hperm.mem_iff.mp hd)).1
  have hpair : (scrollSorted coll name after s o).Pairwise (docRel s o) :=
    sorted_docRel s o (scrollMatched coll name after)
  have hle : (scrollSorted coll name after s o).Pairwise
      (fun a b => strLe a.id b.id = true) := by
    refine hpair.imp_of_mem ?_
    intro a b ha hb hab
    have hfa := heq a (hmem a ha)
    have hfb := heq b (hmem b hb)
    unfold docRel docLe at hab
    rw [if_pos (hfa.trans hfb.symm)] at hab
    exact hab
  have hnodupS : ((scrollSorted coll name after s o).map ScrollDoc.id).Nodup := by
    have h1 : List.Sublist ((scrollMatched coll name after).map ScrollDoc.id)
        (coll.map ScrollDoc.id) := (List.filter_sublist coll).map ScrollDoc.id
    exact ((hperm.map ScrollDoc.id).nodup_iff).mpr (h1.nodup hnodup)
  have hne : (scrollSorted coll name after s o).Pairwise
      (fun a b => a.id ≠ b.id) := List.pairwise_map.mp hnodupS
  exact (hle.and hne).imp (fun h => strLt_of_le_of_ne h.1 h.2)

theorem filter_gt_getElem_of_strict :
    ∀ (M : List ScrollDoc) (k : Nat) (hk : k < M.length),
      M.Pairwise (fun a b => strLt a.id b.id = true) →
      M.filter (fun d => strLt (M.get ⟨k, hk⟩).id d.id) = M.drop (k + 1)
  | [], k, hk, _ => absurd hk (by simp)
  | x :: t, 0, hk, hp => by
    rw [List.pairwise_cons] at hp
    show (x :: t).filter (fun d => strLt x.id d.id) = t
    rw [List.filter_cons, if_neg (by simp [strLt_irrefl])]
    exact List.filter_eq_self.mpr (fun d hd => hp.1 d hd)
  | x :: t, k + 1, hk, hp => by
    rw [List.pairwise_cons] at hp
    have hk' : k < t.length := by simpa using hk
    have hxk : strLt x.id (t.get ⟨k, hk'⟩).id = true := hp.1 _ (List.get_mem t k hk')
    show (x :: t).filter (fun d => strLt (t.get ⟨k, hk'⟩).id d.id) =
      List.drop (k + 2) (x :: t)
    rw [List.filter_cons, if_neg (by rw [strLt_asymm hxk]; simp)]
    have := filter_gt_getElem_of_strict t k hk' hp.2
    rw [this]
    rfl

theorem filter_cursor_compose (coll : List ScrollDoc) (after : Option String)
    (cur : String) (hcur : ∀ a, after = some a → strLt a cur = true) :
    coll.filter (fun d => cursorPred (some cur) d) =
      (coll.filter (fun d => cursorPred after d)).filter
        (fun d => strLt cur d.id) := by
  rw [List.filter_filter]
  refine List.filter_congr ?_
  intro d hd
  show cursorPred (some cur) d = (strLt cur d.id && cursorPred after d)
  unfold cursorPred
  cases after with
  | none => simp
  | some a =>
    cases hx : strLt cur d.id with
    | false => simp [hx]
    | true => simp [hx, strLt_trans (hcur a rfl) hx]

theorem scroll_perm_aux (coll : List ScrollDoc) (s o : String) (limit : Int)
    (c : String)
    (hl1 : 1 ≤ limit) (hl2 : limit ≤ 100)
    (hs : ALLOWED_SORT_FIELDS.contains s = true)
    (ho : o = "asc" ∨ o = "desc")
    (hval : ∀ d ∈ coll, isValidObjectId d.id = true)
    (heq : ∀ d ∈ coll, d.fields s = c)
    (hnodup : (coll.map ScrollDoc.id).Nodup) :
    ∀ (fuel : Nat) (after : Option String),
      (∀ a, after = some a → isValidObjectId a = true) →
      (coll.filter (fun d => cursorPred after d)).length < fuel →
      (scroll (Except.ok coll) s o limit after fuel).Perm
        (coll.filter (fun d => cursorPred after d)) := by
  intro fuel
  induction fuel with
  | zero => intro after hva hflt; exact absurd hflt (Nat.not_lt_zero _)
  | succ f ih =>
    intro after hva hflt
    have hmatch : scrollMatched coll none after =
        coll.filter (fun d => cursorPred after d) :=
      List.filter_congr (fun d hd => by simp [nameMatch])
    have hMperm : (scrollSorted coll none after s o).Perm
        (coll.filter (fun d => cursorPred after d)) := by
      have h := scrollSorted_perm coll none after s o
      rwa [hmatch] at h
    have hMlen : (scrollSorted coll none after s o).length =
        (coll.filter (fun d => cursorPred after d)).length := hMperm.length_eq
    simp only [scroll, get_platforms_ok coll () none after limit s o hl1 hl2 hs ho hva]
    by_cases hcase : limit.toNat < (scrollSorted coll none after s o).length
    · rw [runScrollQuery_more coll none after limit s o hcase]
      dsimp only
      have hn1 : (1 : Nat) ≤ limit.toNat := by omega
      have hidx : limit.toNat - 1 < (scrollSorted coll none after s o).length := by omega
      have hcur : ((scrollSorted coll none after s o).take limit.toNat).getLast?.map
            ScrollDoc.id =
          some ((scrollSorted coll none after s o).get
            ⟨limit.toNat - 1, hidx⟩).id := by
        rw [getLast?_take _ limit.toNat hn1 (Nat.le_of_lt hcase),
          List.getElem?_eq_getElem hidx]
        rfl
      rw [hcur]
      have hemem : (scrollSorted coll none after s o).get ⟨limit.toNat - 1, hidx⟩ ∈
          scrollSorted coll none after s o := List.get_mem _ _ _
      have heF : (scrollSorted coll none after s o).get ⟨limit.toNat - 1, hidx⟩ ∈
          coll.filter (fun d => cursorPred after d) := hMperm.mem_iff.mp hemem
      have hecoll : (scrollSorted coll none after s o).get ⟨limit.toNat - 1, hidx⟩ ∈
          coll := (List.mem_filter.mp heF).1
      have hcurval : isValidObjectId
          ((scrollSorted coll none after s o).get ⟨limit.toNat - 1, hidx⟩).id = true :=
        hval _ hecoll
      have hcurgt : ∀ a, after = some a →
          strLt a ((scrollSorted coll none after s o).get
            ⟨limit.toNat - 1, hidx⟩).id = true := by
        intro a ha
        subst ha
        simpa [cursorPred] using (List.mem_filter.mp heF).2
      have hstrict := scrollSorted_id_strict coll none after s o c heq hnodup
      have hdrop := filter_gt_getElem_of_strict (scrollSorted coll none after s o)
        (limit.toNat - 1) hidx hstrict
      rw [(by omega : limit.toNat - 1 + 1 = limit.toNat)] at hdrop
      have hF'perm : (coll.filter (fun d => cursorPred
          (some ((scrollSorted coll none after s o).get
            ⟨limit.toNat - 1, hidx⟩).id) d)).Perm
          ((scrollSorted coll none after s o).drop limit.toNat) := by
        rw [filter_cursor_compose coll after _ hcurgt, ← hdrop]
        exact (hMperm.symm).filter _
      have hlen' : (coll.filter (fun d => cursorPred
          (some ((scrollSorted coll none after s o).get
            ⟨limit.toNat - 1, hidx⟩).id) d)).length < f := by
        have h1 := hF'perm.length_eq
        rw [List.length_drop] at h1
        omega
      have hrec := ih (some ((scrollSorted coll none after s o).get
          ⟨limit.toNat - 1, hidx⟩).id)
        (fun a ha => by cases ha; exact hcurval) hlen'
      refine (List.Perm.append_left _ (hrec.trans hF'perm)).trans ?_
      rw [List.take_append_drop]
      exact hMperm
    · rw [runScrollQuery_no_more coll none after limit s o (by omega)]
      dsimp only
      exact hMperm

/-- Claim C1 counterexample: on a fixed 3-document collection with valid,
pairwise-distinct ObjectIds, scrolling with the valid parameters
`sort_by = "name"`, `order = "asc"`, `limit = 2` terminates but returns the
document with id `...003` twice: the concatenated pages are not a
permutation of the collection, so the claimed exactly-once property fails —
the id-cursor only composes with the requested sort when the sort order
agrees with id order. -/
theorem scroll_duplicates_cx :
    ALLOWED_SORT_FIELDS.contains "name" = true ∧
    (demoColl.map ScrollDoc.id).Nodup ∧
    (∀ d ∈ demoColl, isValidObjectId d.id = true) ∧
    (scroll (Except.ok demoColl) "name" "asc" 2 none 4).map ScrollDoc.id =
      ["000000000000000000000003", "000000000000000000000001",
       "000000000000000000000003", "000000000000000000000002"] ∧
    ¬ ((scroll (Except.ok demoColl) "name" "asc" 2 none 4).map ScrollDoc.id).Perm
        (demoColl.map ScrollDoc.id) :=
  ⟨by decide, by decide, by decide, by decide, by decide⟩

/-- Claim C1 (amended): for a fixed collection with valid, pairwise-distinct
ObjectIds in which all documents carry the same `sort_by` value (so that the
deterministic id-ascending tie-break alone determines the order and the sort
order agrees with the id order), repeatedly calling the list operation with
`after_id` = previous `next_cursor`, starting from no cursor, yields pages
whose concatenated items contain every document exactly once — with no
duplicates and no skips — for every valid `limit` and `order`, and for any
sufficient call budget. -/
theorem scroll_uniform_sort_value_visits_each_once
    (coll : List ScrollDoc) (s o : String) (limit : Int) (c : String) (fuel : Nat)
    (hl1 : 1 ≤ limit) (hl2 : limit ≤ 100)
    (hs : ALLOWED_SORT_FIELDS.contains s = true)
    (ho : o = "asc" ∨ o = "desc")
    (hval : ∀ d ∈ coll, isValidObjectId d.id = true)
    (heq : ∀ d ∈ coll, d.fields s = c)
    (hnodup : (coll.map ScrollDoc.id).Nodup)
    (hfuel : coll.length < fuel) :
    (scroll (Except.ok coll) s o limit none fuel).Perm coll := by
  have hfe : coll.filter (fun d => cursorPred none d) = coll :=
    List.filter_eq_self.mpr (fun d _ => rfl)
  have h := scroll_perm_aux coll s o limit c hl1 hl2 hs ho hval heq hnodup fuel none
    (fun a ha => Option.noConfusion ha) (by rw [hfe]; exact hfuel)
  rwa [hfe] at h

/-- Claim C1 witness: a two-document collection with equal sort values,
scrolled with `limit = 1` in descending order, is visited exactly once. -/
theorem scroll_uniform_sort_value_visits_each_once_witness :
    (1 : Int) ≤ 1 ∧
    (scroll (Except.ok uniformColl) "name" "desc" 1 none 3).Perm uniformColl :=
  ⟨by decide,
    scroll_uniform_sort_value_visits_each_once uniformColl "name" "desc" 1 "x" 3
      (by decide) (by decide) (by decide) (Or.inr rfl) (by decide) (by decide)
      (by decide) (by decide)⟩

end ImpactProfile
